import Mathlib

/-
Verification of the OCR demo application (src/app.py).

The program is a single linear pipeline `process_document`:
accept an image, call a remote model, split the response text into
lines, strip emphasis markers, build a document of paragraph runs, save
it at a fixed path, and return (file, status, preview).

Strings are modelled as `List Char` (Lean's `String` is a structure
wrapping `List Char`, and list recursion keeps every definition
executable and kernel-reducible).  Python string operations used by the
source (`split('\n')`, `strip()`, `in`, `replace`) are translated below,
each faithful to Python semantics.
-/

namespace OCR

/-- Python `s.split('\n')`: split at every newline, keeping empty pieces;
the result is always non-empty. -/
def splitOnNl : List Char → List (List Char)
  | [] => [[]]
  | c :: rest =>
    if c = '\n' then [] :: splitOnNl rest
    else
      match splitOnNl rest with
      | [] => [[c]]
      | l :: ls => (c :: l) :: ls

/-- Python `s.strip()`: drop whitespace from both ends. -/
def pyStrip (l : List Char) : List Char :=
  ((l.dropWhile Char.isWhitespace).reverse.dropWhile Char.isWhitespace).reverse

/-- Python `pat in s`: substring containment (the empty pattern is
contained in every string). -/
def containsSub (pat : List Char) (s : List Char) : Bool :=
  match s with
  | [] => pat.isEmpty
  | c :: rest => pat.isPrefixOf (c :: rest) || containsSub pat rest

/-- Worker for `replaceAll`.  The `Nat` argument counts characters still
to be skipped after an occurrence of the pattern was consumed, so that
matching is left-to-right and non-overlapping, as in Python. -/
def replaceAllAux (pat rep : List Char) : Nat → List Char → List Char
  | _, [] => []
  | Nat.succ k, _ :: rest => replaceAllAux pat rep k rest
  | 0, c :: rest =>
    if !pat.isEmpty && pat.isPrefixOf (c :: rest) then
      rep ++ replaceAllAux pat rep (pat.length - 1) rest
    else
      c :: replaceAllAux pat rep 0 rest

/-- Python `s.replace(pat, rep)`: replace every occurrence of `pat`,
scanning left to right without overlap. -/
def replaceAll (pat rep s : List Char) : List Char :=
  replaceAllAux pat rep 0 s

/-- One output paragraph: a single run of text with the two flags the
source sets on it (`run.bold`, `run.italic`). -/
structure Para where
  text : List Char
  bold : Bool
  italic : Bool
deriving DecidableEq, Repr

/-- The body of the per-line loop of `process_document`
(src/app.py lines 50-58): strip the line, drop it when empty, otherwise
build the run from the cleaned text, with flags decided on the raw line. -/
def lineToPara (line : List Char) : Option Para :=
  let clean_line := pyStrip line
  if clean_line.isEmpty then none
  else some
    { text := replaceAll ['*'] [] (replaceAll ['*', '*'] [] clean_line)
      bold := containsSub ['*', '*'] line
      italic := containsSub ['*'] line && !containsSub ['*', '*'] line }

/-- The formatter: the document produced from the extracted text by the
loop of src/app.py lines 50-58, one paragraph per kept line, in order. -/
def formatText (extracted_text : List Char) : List Para :=
  (splitOnNl extracted_text).filterMap lineToPara

/-! Pipeline model.  `process_document` interacts with the outside world
at three points: the inputs (image and the process-wide credential), the
remote call `model.generate_content`, and `doc.save` at the fixed output
path.  These are passed in as an explicit environment; the file system is
one cell, the content last saved at the fixed path. -/

/-- What the protected block's remote call does: raise some exception
(caught by the outer `except`), or return a response whose `.text` is
`none` (a falsy response or missing text) or a string. -/
inductive Outcome where
  | raises (msg : List Char)
  | returns (respText : Option (List Char))
deriving DecidableEq, Repr

/-- The environment of one request: the uploaded image (opaque pixel
buffer or `none`), the credential `api_key` read from the environment at
process start, the outcome of the remote call, and whether `doc.save`
raises.  `doc.save` is modelled as atomic: python-docx assembles the
package in memory and writes it in one final step, so on an exception the
previous file is kept. -/
structure PipeEnv where
  img : Option Nat
  api_key : Option (List Char)
  call : Outcome
  saveExn : Option (List Char)
deriving DecidableEq, Repr

/-- The triple returned to the UI, plus whether the remote call was
reached. -/
structure PipeOut where
  attemptedCall : Bool
  file : Option (List Char)
  status : List Char
  preview : List Char
deriving DecidableEq, Repr

/-- Python truthiness of `api_key` in `if not api_key` : falsy when the
environment variable is absent or empty. -/
def keyFalsy : Option (List Char) → Bool
  | none => true
  | some s => s.isEmpty

def noImageMsg : List Char := "Error: No image uploaded.".data

def noKeyMsg : List Char :=
  "Error: API Key missing in Space Secrets (GEMINI_API_KEY).".data

def emptyRespMsg : List Char := "Error: Model returned an empty response.".data

def successMsg : List Char := "✅ Conversion Successful!".data

def sysErrHead : List Char := "❌ System Error: ".data

def output_path : List Char := "Converted_Document.docx".data

/-- `process_document` (src/app.py lines 17-66) over the explicit
environment.  The first component is the content at the fixed output
path after the request, given content `fs` before it. -/
def process_document (fs : Option (List Para)) (env : PipeEnv) :
    Option (List Para) × PipeOut :=
  if env.img.isNone then
    (fs, ⟨false, none, noImageMsg, []⟩)
  else if keyFalsy env.api_key then
    (fs, ⟨false, none, noKeyMsg, []⟩)
  else
    match env.call with
    | .raises e => (fs, ⟨true, none, sysErrHead ++ e, []⟩)
    | .returns none => (fs, ⟨true, none, emptyRespMsg, []⟩)
    | .returns (some t) =>
      if t.isEmpty then (fs, ⟨true, none, emptyRespMsg, []⟩)
      else
        match env.saveExn with
        | some e => (fs, ⟨true, none, sysErrHead ++ e, []⟩)
        | none => (some (formatText t), ⟨true, some output_path, successMsg, t⟩)

/-! Spec-side formatter.  Section 4.2 of the specification words the
algorithm over the trimmed line; the definitions below follow those
words, to be compared with `formatText` above. -/

/-- Emphasis of a paragraph as the spec describes it: none, bold or
italic, mutually exclusive. -/
inductive Emphasis where
  | noEmph
  | bold
  | italic
deriving DecidableEq, Repr

/-- Spec 4.2: detect presence of a double-marker substring (bold) else a
single-marker substring (italic) else none. -/
def classifyLine (l : List Char) : Emphasis :=
  if containsSub ['*', '*'] l then .bold
  else if containsSub ['*'] l then .italic
  else .noEmph

/-- Spec 4.2: strip all marker substrings from the displayed text, that
is, remove every occurrence of the marker character. -/
def stripMarkers (l : List Char) : List Char :=
  l.filter (fun c => c != '*')

/-- A (text, emphasis) pair rendered as a paragraph with the two flags. -/
def paraOfEmphasis (t : List Char) : Emphasis → Para
  | .bold => ⟨t, true, false⟩
  | .italic => ⟨t, false, true⟩
  | .noEmph => ⟨t, false, false⟩

/-- The formatter as the spec words it: split on line breaks, trim
whitespace, discard empty lines, classify each remaining line, strip the
markers from the displayed text, preserving line order. -/
def specFormat (text : List Char) : List Para :=
  (((splitOnNl text).map pyStrip).filter (fun l => !l.isEmpty)).map
    (fun l => paraOfEmphasis (stripMarkers l) (classifyLine l))

/-- Serialize one paragraph back into a marked-up line: bold text between
doubled markers, italic text between single markers, plain text as is. -/
def renderPara (p : Para) : List Char :=
  if p.bold then ['*', '*'] ++ p.text ++ ['*', '*']
  else if p.italic then ['*'] ++ p.text ++ ['*']
  else p.text

/-- Serialize a paragraph list back into response text, one line per
paragraph. -/
def renderParas (ps : List Para) : List Char :=
  List.intercalate ['\n'] (ps.map renderPara)

/-! Helper lemmas about the string operations. -/

theorem replaceAllAux_nil (pat rep : List Char) (k : Nat) :
    replaceAllAux pat rep k [] = [] := by
  cases k <;> rfl

theorem replaceAllAux_skip (pat rep : List Char) (k : Nat) (c : Char)
    (rest : List Char) :
    replaceAllAux pat rep (k + 1) (c :: rest) = replaceAllAux pat rep k rest :=
  rfl

theorem replaceAllAux_zero_cons (pat rep : List Char) (c : Char)
    (rest : List Char) :
    replaceAllAux pat rep 0 (c :: rest)
      = if !pat.isEmpty && pat.isPrefixOf (c :: rest) then
          rep ++ replaceAllAux pat rep (pat.length - 1) rest
        else
          c :: replaceAllAux pat rep 0 rest :=
  rfl

/-- Removing single markers is filtering out the marker character. -/
theorem replaceAll_star (l : List Char) :
    replaceAll ['*'] [] l = l.filter (fun c => c != '*') := by
  induction l with
  | nil => rfl
  | cons c rest ih =>
    rw [replaceAll] at ih ⊢
    rw [replaceAllAux_zero_cons]
    by_cases hc : c = '*'
    · subst hc
      simp [List.isPrefixOf, ih]
    · have hc' : ¬('*' = c) := fun h => hc h.symm
      simp [List.isPrefixOf, hc', ih, hc]

/-- Bounded-length version: removing doubled markers deletes only marker
characters, so filtering the markers afterwards gives the same result as
filtering the original. -/
theorem filter_star_replaceDouble_aux :
    ∀ (n : Nat) (l : List Char), l.length ≤ n →
      (replaceAllAux ['*', '*'] [] 0 l).filter (fun c => c != '*')
        = l.filter (fun c => c != '*') := by
  intro n
  induction n with
  | zero =>
    intro l hl
    have : l = [] := List.eq_nil_of_length_eq_zero (Nat.le_zero.mp hl)
    subst this
    rfl
  | succ n ih =>
    intro l hl
    match l with
    | [] => rfl
    | [c] =>
      rw [replaceAllAux_zero_cons]
      simp [List.isPrefixOf, replaceAllAux_nil]
    | c :: r0 :: rest2 =>
      simp only [List.length_cons] at hl
      rw [replaceAllAux_zero_cons]
      by_cases h1 : c = '*'
      · by_cases h2 : r0 = '*'
        · subst h1
          subst h2
          have hIH := ih rest2 (by omega)
          simp [List.isPrefixOf, replaceAllAux_skip, hIH]
        · subst h1
          have hIH := ih (r0 :: rest2) (by simp only [List.length_cons]; omega)
          have h2' : ¬('*' = r0) := fun h => h2 h.symm
          simp [List.isPrefixOf, h2', hIH]
      · have hIH := ih (r0 :: rest2) (by simp only [List.length_cons]; omega)
        have h1' : ¬('*' = c) := fun h => h1 h.symm
        simp [List.isPrefixOf, h1', hIH, h1]

/-- The cleaned text of the source (doubled markers removed, then single
markers removed) is exactly the marker-free filtering of the line. -/
theorem replaceAll_both_stars (l : List Char) :
    replaceAll ['*'] [] (replaceAll ['*', '*'] [] l) = stripMarkers l := by
  rw [replaceAll_star]
  exact filter_star_replaceDouble_aux l.length l (Nat.le_refl _)

/-- A non-empty pattern of non-whitespace characters never occurs in a
string of whitespace. -/
theorem containsSub_allWs (p : List Char) (hp : p ≠ [])
    (hpw : ∀ c ∈ p, c.isWhitespace = false) :
    ∀ t : List Char, (∀ c ∈ t, c.isWhitespace = true) → containsSub p t = false := by
  intro t
  induction t with
  | nil =>
    intro _
    cases p with
    | nil => exact absurd rfl hp
    | cons a as => rfl
  | cons c t' ih =>
    intro htw
    have hc : c.isWhitespace = true := htw c (by simp)
    cases p with
    | nil => exact absurd rfl hp
    | cons p0 p' =>
      have hp0 : p0.isWhitespace = false := hpw p0 (by simp)
      have hne : ¬(p0 = c) := by
        intro he
        rw [he, hc] at hp0
        simp at hp0
      have ht' := ih (fun x hx => htw x (by simp [hx]))
      simp [containsSub, List.isPrefixOf, hne, ht']

/-- Appending trailing whitespace does not change whether a
non-whitespace pattern is a prefix. -/
theorem isPrefixOf_append_ws (p t : List Char)
    (hpw : ∀ c ∈ p, c.isWhitespace = false)
    (htw : ∀ c ∈ t, c.isWhitespace = true) :
    ∀ d : List Char, p.isPrefixOf (d ++ t) = p.isPrefixOf d := by
  induction p with
  | nil => intro d; cases d <;> simp [List.isPrefixOf]
  | cons p0 p' ih =>
    intro d
    cases d with
    | nil =>
      cases t with
      | nil => rfl
      | cons c t' =>
        have hp0 : p0.isWhitespace = false := hpw p0 (by simp)
        have hc : c.isWhitespace = true := htw c (by simp)
        have hne : ¬(p0 = c) := by
          intro he
          rw [he, hc] at hp0
          simp at hp0
        simp [List.isPrefixOf, hne]
    | cons d0 d' =>
      have ih' := ih (fun c hc => hpw c (by simp [hc]))
      simp [List.isPrefixOf, ih']

/-- Appending trailing whitespace does not change containment of a
non-empty non-whitespace pattern. -/
theorem containsSub_append_wsRight (p t : List Char) (hp : p ≠ [])
    (hpw : ∀ c ∈ p, c.isWhitespace = false)
    (htw : ∀ c ∈ t, c.isWhitespace = true) :
    ∀ d : List Char, containsSub p (d ++ t) = containsSub p d := by
  intro d
  induction d with
  | nil =>
    rw [List.nil_append]
    rw [containsSub_allWs p hp hpw t htw]
    cases p with
    | nil => exact absurd rfl hp
    | cons a as => rfl
  | cons d0 d' ih =>
    have hpre := isPrefixOf_append_ws p t hpw htw (d0 :: d')
    rw [List.cons_append]
    cases t with
    | nil => simp
    | cons c t' =>
      simp only [containsSub, ih]
      rw [← List.cons_append]
      rw [hpre]

/-- Prepending leading whitespace does not change containment of a
non-empty non-whitespace pattern. -/
theorem containsSub_append_wsLeft (p : List Char) (hp : p ≠ [])
    (hpw : ∀ c ∈ p, c.isWhitespace = false) :
    ∀ t d : List Char, (∀ c ∈ t, c.isWhitespace = true) →
      containsSub p (t ++ d) = containsSub p d := by
  intro t
  induction t with
  | nil => intro d _; rfl
  | cons c t' ih =>
    intro d htw
    have hc : c.isWhitespace = true := htw c (by simp)
    cases p with
    | nil => exact absurd rfl hp
    | cons p0 p' =>
      have hp0 : p0.isWhitespace = false := hpw p0 (by simp)
      have hne : ¬(p0 = c) := by
        intro he
        rw [he, hc] at hp0
        simp at hp0
      have ih' := ih d (fun x hx => htw x (by simp [hx]))
      simp [containsSub, List.isPrefixOf, hne, ih']

/-- A stripped line sits between two runs of whitespace in the original
line. -/
theorem pyStrip_decomp (l : List Char) :
    ∃ t₁ t₂ : List Char, (∀ c ∈ t₁, c.isWhitespace = true) ∧
      (∀ c ∈ t₂, c.isWhitespace = true) ∧ l = t₁ ++ (pyStrip l ++ t₂) := by
  refine ⟨l.takeWhile Char.isWhitespace,
    ((l.dropWhile Char.isWhitespace).reverse.takeWhile Char.isWhitespace).reverse,
    ?_, ?_, ?_⟩
  · intro c hc
    exact List.mem_takeWhile_imp hc
  · intro c hc
    rw [List.mem_reverse] at hc
    exact List.mem_takeWhile_imp hc
  · conv_lhs => rw [← List.takeWhile_append_dropWhile
      (p := Char.isWhitespace) (l := l)]
    congr 1
    conv_lhs => rw [← List.reverse_reverse (l.dropWhile Char.isWhitespace),
      ← List.takeWhile_append_dropWhile
        (p := Char.isWhitespace) (l := (l.dropWhile Char.isWhitespace).reverse)]
    rw [List.reverse_append]
    rfl

/-- Marker detection on the raw line and on the stripped line agree. -/
theorem containsSub_pyStrip (p l : List Char) (hp : p ≠ [])
    (hpw : ∀ c ∈ p, c.isWhitespace = false) :
    containsSub p l = containsSub p (pyStrip l) := by
  obtain ⟨t₁, t₂, h₁, h₂, hl⟩ := pyStrip_decomp l
  conv_lhs => rw [hl]
  rw [containsSub_append_wsLeft p hp hpw t₁ (pyStrip l ++ t₂) h₁]
  rw [containsSub_append_wsRight p t₂ hp hpw h₂ (pyStrip l)]

/-- On a kept line, the source's per-line processing produces exactly the
paragraph the spec describes for the trimmed line. -/
theorem lineToPara_eq_spec (line : List Char)
    (h : (pyStrip line).isEmpty = false) :
    lineToPara line
      = some (paraOfEmphasis (stripMarkers (pyStrip line))
          (classifyLine (pyStrip line))) := by
  have hdc : containsSub ['*', '*'] line
      = containsSub ['*', '*'] (pyStrip line) :=
    containsSub_pyStrip ['*', '*'] line (by simp) (by decide)
  have hsc : containsSub ['*'] line = containsSub ['*'] (pyStrip line) :=
    containsSub_pyStrip ['*'] line (by simp) (by decide)
  simp only [lineToPara, h, Bool.false_eq_true, if_false]
  rw [hdc, hsc, replaceAll_both_stars]
  cases hb : containsSub ['*', '*'] (pyStrip line) <;>
    cases hi : containsSub ['*'] (pyStrip line) <;>
      simp [classifyLine, paraOfEmphasis, hb, hi]

/-- C3: for every raw multi-line input text, the formatter splits on line
breaks, trims each line, discards empty lines, classifies each remaining
line (bold when a doubled marker occurs anywhere in it, else italic when
a single marker occurs anywhere in it, else none), displays the trimmed
line with all marker substrings removed, and preserves the order of the
lines: `formatText` equals the formatter defined from the spec's words. -/
theorem claim3_formatter_matches_spec (text : List Char) :
    formatText text = specFormat text := by
  unfold formatText specFormat
  induction splitOnNl text with
  | nil => rfl
  | cons line ls ih =>
    by_cases h : (pyStrip line).isEmpty = true
    · have hnone : lineToPara line = none := by
        simp [lineToPara, h]
      simp [List.filterMap_cons, hnone, List.filter_cons, h, ih]
    · have h' : (pyStrip line).isEmpty = false := by
        simp only [Bool.not_eq_true] at h
        exact h
      simp [List.filterMap_cons, lineToPara_eq_spec line h',
        List.filter_cons, h', ih]

/-- C1: the response text `"**Title**\nSome plain text\n*Note*"` yields
exactly three paragraphs in order: ("Title", bold), ("Some plain text",
no emphasis), ("Note", italic). -/
theorem claim1_end_to_end_example :
    formatText "**Title**\nSome plain text\n*Note*".data =
      [⟨"Title".data, true, false⟩, ⟨"Some plain text".data, false, false⟩,
       ⟨"Note".data, false, true⟩] := by
  decide

/-- C2 counterexample: with a null image and a missing credential, the
pipeline answers with the null-image message, not the credential-specific
one, refuting the claim's "null or not". -/
theorem claim2_counterexample :
    (process_document none ⟨none, none, Outcome.returns none, none⟩).2.status
        = noImageMsg ∧
      noImageMsg ≠ noKeyMsg ∧
      (process_document none
        ⟨none, none, Outcome.returns none, none⟩).2.file = none := by
  decide

/-- C2 (amended): for every non-null image input, if the credential is
missing (absent or empty) then the pipeline returns no file and the
credential-specific error message, no network call is attempted, and the
output file is untouched. -/
theorem claim2_missing_credential (fs : Option (List Para)) (i : Nat)
    (key : Option (List Char)) (call : Outcome) (sx : Option (List Char))
    (hk : keyFalsy key = true) :
    process_document fs ⟨some i, key, call, sx⟩
      = (fs, ⟨false, none, noKeyMsg, []⟩) := by
  simp [process_document, hk]

/-- Witness for C2 (amended) at a concrete input. -/
theorem claim2_missing_credential_witness :
    keyFalsy none = true ∧
      process_document none ⟨some 0, none, Outcome.returns none, none⟩
        = (none, ⟨false, none, noKeyMsg, []⟩) :=
  ⟨rfl, claim2_missing_credential none 0 none (Outcome.returns none) none rfl⟩

/-- C5: on the fixed sample response, serializing the formatter's output
paragraphs back into marked-up lines and formatting again yields the same
(text, emphasis) sequence: formatting is idempotent on the sample. -/
theorem claim5_format_idempotent_sample :
    formatText
        (renderParas (formatText "**Title**\nSome plain text\n*Note*".data))
      = formatText "**Title**\nSome plain text\n*Note*".data := by
  decide

/-- C6: for a null image input the pipeline returns no file, the error
status message, and empty preview text; the remote call is not attempted
and the output file is untouched. -/
theorem claim6_null_image (fs : Option (List Para)) (key : Option (List Char))
    (call : Outcome) (sx : Option (List Char)) :
    process_document fs ⟨none, key, call, sx⟩
      = (fs, ⟨false, none, noImageMsg, []⟩) := by
  simp [process_document]

/-- C4: on every failing request of the kinds the claim lists (null
image, missing credential, exception raised by the call, or empty model
response), the content at the fixed output path is unchanged: the save
happens only after text extraction succeeded. -/
theorem claim4_failures_leave_file (fs : Option (List Para)) (env : PipeEnv)
    (h : env.img = none ∨ keyFalsy env.api_key = true ∨
      (∃ e, env.call = Outcome.raises e) ∨ env.call = Outcome.returns none ∨
      env.call = Outcome.returns (some [])) :
    (process_document fs env).1 = fs := by
  obtain ⟨img, key, call, sx⟩ := env
  rcases h with h | h | ⟨e, h⟩ | h | h
  · subst h
    simp [process_document]
  · cases img with
    | none => simp [process_document]
    | some i => simp [process_document, h]
  · subst h
    cases img <;> cases hk : keyFalsy key <;> simp [process_document, hk]
  · subst h
    cases img <;> cases hk : keyFalsy key <;> simp [process_document, hk]
  · subst h
    cases img <;> cases hk : keyFalsy key <;> simp [process_document, hk]

/-- Witness for C4 at a concrete failing input. -/
theorem claim4_failures_leave_file_witness :
    ((⟨some 0, some ['k'], Outcome.returns none, none⟩ : PipeEnv).img = none ∨
      keyFalsy (⟨some 0, some ['k'], Outcome.returns none, none⟩ :
        PipeEnv).api_key = true ∨
      (∃ e, (⟨some 0, some ['k'], Outcome.returns none, none⟩ : PipeEnv).call
        = Outcome.raises e) ∨
      (⟨some 0, some ['k'], Outcome.returns none, none⟩ : PipeEnv).call
        = Outcome.returns none ∨
      (⟨some 0, some ['k'], Outcome.returns none, none⟩ : PipeEnv).call
        = Outcome.returns (some [])) ∧
    (process_document (some [⟨"old".data, false, false⟩])
        ⟨some 0, some ['k'], Outcome.returns none, none⟩).1
      = some [⟨"old".data, false, false⟩] :=
  ⟨Or.inr (Or.inr (Or.inr (Or.inl rfl))),
   claim4_failures_leave_file (some [⟨"old".data, false, false⟩])
     ⟨some 0, some ['k'], Outcome.returns none, none⟩
     (Or.inr (Or.inr (Or.inr (Or.inl rfl))))⟩

/-- C7: no paragraph the formatter produces is both bold and italic. -/
theorem claim7_emphasis_exclusive (text : List Char) (p : Para)
    (hp : p ∈ formatText text) : ¬(p.bold = true ∧ p.italic = true) := by
  rcases List.mem_filterMap.mp hp with ⟨line, _, hconv⟩
  rintro ⟨hb, hi⟩
  simp only [lineToPara] at hconv
  by_cases h : (pyStrip line).isEmpty = true
  · simp [h] at hconv
  · simp only [h, Bool.false_eq_true, if_false] at hconv
    obtain rfl : _ = p := Option.some.inj hconv
    simp only at hb hi
    rw [hb] at hi
    simp at hi

/-- Witness for C7 at a concrete paragraph of a concrete response. -/
theorem claim7_emphasis_exclusive_witness :
    ((⟨"Title".data, true, false⟩ : Para) ∈ formatText "**Title**".data) ∧
      ¬((⟨"Title".data, true, false⟩ : Para).bold = true ∧
        (⟨"Title".data, true, false⟩ : Para).italic = true) :=
  ⟨by decide,
   claim7_emphasis_exclusive "**Title**".data ⟨"Title".data, true, false⟩
     (by decide)⟩

/-- C8: a line that is non-empty after trimming but consists only of
marker characters still yields a paragraph, whose displayed text is
empty, because emptiness is checked before marker stripping. -/
theorem claim8_marker_only_line (text line : List Char)
    (hline : line ∈ splitOnNl text)
    (hne : pyStrip line ≠ [])
    (hstar : ∀ c ∈ pyStrip line, c = '*') :
    ∃ p ∈ formatText text, p.text = [] := by
  have hempty : (pyStrip line).isEmpty = false := by
    cases hps : pyStrip line with
    | nil => exact absurd hps hne
    | cons a as => rfl
  refine ⟨paraOfEmphasis (stripMarkers (pyStrip line))
      (classifyLine (pyStrip line)), ?_, ?_⟩
  · exact List.mem_filterMap.mpr ⟨line, hline, lineToPara_eq_spec line hempty⟩
  · have hnil : stripMarkers (pyStrip line) = [] := by
      simp only [stripMarkers]
      rw [List.filter_eq_nil_iff]
      intro c hc
      simp [hstar c hc]
    cases classifyLine (pyStrip line) <;> simp [paraOfEmphasis, hnil]

/-- Witness for C8 on the line consisting of a bare doubled marker. -/
theorem claim8_marker_only_line_witness :
    ("**".data ∈ splitOnNl "**".data) ∧ pyStrip "**".data ≠ [] ∧
      (∀ c ∈ pyStrip "**".data, c = '*') ∧
      ∃ p ∈ formatText "**".data, p.text = [] :=
  ⟨by decide, by decide, by decide,
   claim8_marker_only_line "**".data "**".data (by decide) (by decide)
     (by decide)⟩

/-- C9: on a successful request (non-null image, credential present,
non-empty response, save succeeds) the preview returned as the third
output is the raw response text, markers included, while the document
receives the cleaned paragraphs. -/
theorem claim9_preview_raw (fs : Option (List Para)) (i : Nat)
    (key : Option (List Char)) (t : List Char)
    (hk : keyFalsy key = false) (ht : t.isEmpty = false) :
    process_document fs ⟨some i, key, Outcome.returns (some t), none⟩
      = (some (formatText t), ⟨true, some output_path, successMsg, t⟩) := by
  simp [process_document, hk, ht]

/-- Witness for C9 on a response that carries markers. -/
theorem claim9_preview_raw_witness :
    keyFalsy (some ['k']) = false ∧ ("*x*".data).isEmpty = false ∧
      process_document none
          ⟨some 0, some ['k'], Outcome.returns (some "*x*".data), none⟩
        = (some (formatText "*x*".data),
           ⟨true, some output_path, successMsg, "*x*".data⟩) :=
  ⟨rfl, rfl, claim9_preview_raw none 0 (some ['k']) "*x*".data rfl rfl⟩

/-- C10: every request that does not end in the success status returns
exactly the triple of no file, a non-empty error message, and empty
preview text. -/
theorem claim10_failure_triple (fs : Option (List Para)) (env : PipeEnv)
    (h : (process_document fs env).2.status ≠ successMsg) :
    (process_document fs env).2.file = none ∧
      (process_document fs env).2.status ≠ [] ∧
      (process_document fs env).2.preview = [] := by
  obtain ⟨img, key, call, sx⟩ := env
  cases img with
  | none =>
    have heq : process_document fs ⟨none, key, call, sx⟩
        = (fs, ⟨false, none, noImageMsg, []⟩) := by
      simp [process_document]
    rw [heq]
    refine ⟨rfl, ?_, rfl⟩
    show noImageMsg ≠ []
    decide
  | some i =>
    cases hk : keyFalsy key with
    | true =>
      have heq : process_document fs ⟨some i, key, call, sx⟩
          = (fs, ⟨false, none, noKeyMsg, []⟩) := by
        simp [process_document, hk]
      rw [heq]
      refine ⟨rfl, ?_, rfl⟩
      show noKeyMsg ≠ []
      decide
    | false =>
      cases call with
      | raises e =>
        have heq : process_document fs ⟨some i, key, Outcome.raises e, sx⟩
            = (fs, ⟨true, none, sysErrHead ++ e, []⟩) := by
          simp [process_document, hk]
        rw [heq]
        refine ⟨rfl, ?_, rfl⟩
        simp [sysErrHead]
      | returns rt =>
        cases rt with
        | none =>
          have heq : process_document fs
              ⟨some i, key, Outcome.returns none, sx⟩
              = (fs, ⟨true, none, emptyRespMsg, []⟩) := by
            simp [process_document, hk]
          rw [heq]
          refine ⟨rfl, ?_, rfl⟩
          show emptyRespMsg ≠ []
          decide
        | some t =>
          cases hte : t.isEmpty with
          | true =>
            have heq : process_document fs
                ⟨some i, key, Outcome.returns (some t), sx⟩
                = (fs, ⟨true, none, emptyRespMsg, []⟩) := by
              simp [process_document, hk, hte]
            rw [heq]
            refine ⟨rfl, ?_, rfl⟩
            show emptyRespMsg ≠ []
            decide
          | false =>
            cases sx with
            | some e =>
              have heq : process_document fs
                  ⟨some i, key, Outcome.returns (some t), some e⟩
                  = (fs, ⟨true, none, sysErrHead ++ e, []⟩) := by
                simp [process_document, hk, hte]
              rw [heq]
              refine ⟨rfl, ?_, rfl⟩
              simp [sysErrHead]
            | none =>
              have heq : process_document fs
                  ⟨some i, key, Outcome.returns (some t), none⟩
                  = (some (formatText t),
                     ⟨true, some output_path, successMsg, t⟩) := by
                simp [process_document, hk, hte]
              rw [heq] at h
              exact absurd rfl h

/-- Witness for C10 at a concrete failing input. -/
theorem claim10_failure_triple_witness :
    ((process_document none
        ⟨some 0, some ['k'], Outcome.raises "boom".data, none⟩).2.status
      ≠ successMsg) ∧
    ((process_document none
        ⟨some 0, some ['k'], Outcome.raises "boom".data, none⟩).2.file = none ∧
      (process_document none
        ⟨some 0, some ['k'], Outcome.raises "boom".data, none⟩).2.status ≠ [] ∧
      (process_document none
        ⟨some 0, some ['k'], Outcome.raises "boom".data, none⟩).2.preview
        = []) :=
  ⟨by decide,
   claim10_failure_triple none ⟨some 0, some ['k'], Outcome.raises "boom".data,
     none⟩ (by decide)⟩

end OCR
